import Mathlib

/-
  Shallow embedding of the taskery-api domain + application layer
  (value objects, Task/User entities, TaskService/UserService flows),
  translated from the Go sources under internal/domain and
  internal/services.

  Conventions:
  * `time.Time` is modelled as `Int`; `a.Before(b)` is `a < b`.
  * Go errors are modelled by `GoError`: named `errors.New` sentinels,
    opaque message-only errors, and `fmt.Errorf("%w: %s", sentinel, cause)`
    wrappers.  In Go only the `%w` argument is in the unwrap chain (the
    cause is formatted to text), so `GoError.is` inspects the outer
    sentinel only — exactly the `errors.Is` behaviour of the source.
  * External collaborators (bcrypt, net/mail, the repositories, the
    uuid generator, the clock) are passed as explicit parameters.
-/

namespace Taskery

abbrev Time := Int

/-- A Go string, viewed as its sequence of runes (code points).  Go's
`len([]rune(s))` is `List.length`; rune-wise operations are list
operations. -/
abbrev GoStr := List Char

/-- Whitespace as trimmed by `strings.TrimSpace` (the ASCII whitespace
characters; the claims never involve the extra Unicode space classes). -/
def isSpaceGo (c : Char) : Bool :=
  c == ' ' || c == '\t' || c == '\n' || c == '\r' || c.val == 11 || c.val == 12

/-- Go `strings.TrimSpace`: drop leading and trailing whitespace. -/
def trimSpace (s : GoStr) : GoStr :=
  ((s.dropWhile isSpaceGo).reverse.dropWhile isSpaceGo).reverse

instance {ε α : Type} [DecidableEq ε] [DecidableEq α] : DecidableEq (Except ε α) := fun a b =>
  match a, b with
  | .ok x, .ok y =>
    if h : x = y then isTrue (by rw [h]) else isFalse (fun hc => h (Except.ok.inj hc))
  | .error x, .error y =>
    if h : x = y then isTrue (by rw [h]) else isFalse (fun hc => h (Except.error.inj hc))
  | .ok _, .error _ => isFalse (fun hc => Except.noConfusion hc)
  | .error _, .ok _ => isFalse (fun hc => Except.noConfusion hc)

/-- The named `errors.New` sentinel values declared in the Go sources
(`internal/services/user_service.go`, the task service file, and the
value-object packages). -/
inductive Sentinel
  -- user repository-level sentinels
  | userRepoExists
  | userRepoNotFound
  -- user application-level sentinels
  | userExists
  | userNotFound
  | userRegisterFailed
  | userLoginFailed
  | userChangeEmailFailed
  | userChangePasswordFailed
  | userDeleteFailed
  | userUnauthorized
  | emailAlreadyTaken
  -- task repository-level sentinels
  | taskRepoExists
  | taskRepoNotFound
  | taskRepoOwnerNotFound
  -- task application-level sentinels
  | taskExists
  | taskNotFound
  | taskOwnerNotFound
  | taskCreateFailed
  | taskChangeTitleFailed
  | taskChangeDescriptionFailed
  | taskSetDeadlineFailed
  | taskRemoveDeadlineFailed
  | taskCompleteFailed
  | taskReopenFailed
  | taskFindByOwnerFailed
  | taskAccessDenied
  -- value-object validation sentinels
  | titleEmpty
  | titleTooLong
  | descriptionTooLong
  | deadlineBeforeNow
  | usernameEmpty
  | usernameTooShort
  | usernameTooLong
  | emailEmpty
  | emailInvalid
  | passwordEmpty
  | passwordTooShort
  | passwordTooLong
  | passwordInvalid
  | passwordHashing
  | passwordVerifyFailed
  | passowrdNotMatch
  -- entity-level sentinels
  | userIDInvalid
  | taskFailedCreateFromDB
deriving DecidableEq

/-- A Go error value as the services see it: a bare sentinel, an opaque
error known only by its message, or `fmt.Errorf("%w: %s", s, cause)`.
The cause of a wrap is kept as data but is not in the unwrap chain
(the source formats it with `%s`). -/
inductive GoError
  | sentinel : Sentinel → GoError
  | text : String → GoError
  | wrap : Sentinel → GoError → GoError
deriving DecidableEq

/-- Go `errors.Is(e, target)` for a sentinel target: true iff the outermost
wrapped/bare sentinel equals the target. -/
def GoError.is : GoError → Sentinel → Bool
  | .sentinel s, t => s == t
  | .text _, _ => false
  | .wrap s _, t => s == t

/- ===================== task value objects ===================== -/

/-- Go `vo.Title` — validated task title. -/
structure Title where
  value : GoStr
deriving DecidableEq

def TitleMaxLength : Nat := 50

/-- Go `vo.NewTitle`: trim, reject empty, reject more than 50 code points. -/
def NewTitle (value : GoStr) : Except GoError Title :=
  let value := trimSpace value
  if value = [] then .error (.sentinel .titleEmpty)
  else if value.length > TitleMaxLength then .error (.sentinel .titleTooLong)
  else .ok ⟨value⟩

/-- Go `vo.Description` — validated task description. -/
structure Description where
  value : GoStr
deriving DecidableEq

def DescriptionMaxLength : Nat := 1000

/-- Go `vo.NewDescription`: reject more than 1000 code points; empty allowed. -/
def NewDescription (value : GoStr) : Except GoError Description :=
  if value.length > DescriptionMaxLength then .error (.sentinel .descriptionTooLong)
  else .ok ⟨value⟩

/-- Go `vo.Deadline` — deadline timestamp value object. -/
structure Deadline where
  value : Time
deriving DecidableEq

/-- Go `vo.NewDeadline`: fails with `ErrDeadlineBeforeNow` iff
`value.Before(time.Now())`, i.e. iff `value < now`. -/
def NewDeadline (now value : Time) : Except GoError Deadline :=
  if value < now then .error (.sentinel .deadlineBeforeNow)
  else .ok ⟨value⟩

def Deadline.time (d : Deadline) : Time := d.value

def Deadline.IsBefore (d : Deadline) (t : Time) : Bool := d.value < t

def Deadline.IsAfter (d : Deadline) (t : Time) : Bool := t < d.value

/-- Go `Deadline.IsOverdue`: `d.value.Before(time.Now())`. -/
def Deadline.IsOverdue (d : Deadline) (now : Time) : Bool := d.value < now

/- ===================== user value objects ===================== -/

/-- Go `vo.Username` — validated username. -/
structure Username where
  value : GoStr
deriving DecidableEq

def UsernameMinLength : Nat := 2
def UsernameMaxLength : Nat := 30

/-- Go `vo.NewUsername`: reject empty, fewer than 2 or more than 30 code points. -/
def NewUsername (value : GoStr) : Except GoError Username :=
  if value = [] then .error (.sentinel .usernameEmpty)
  else if value.length < UsernameMinLength then .error (.sentinel .usernameTooShort)
  else if value.length > UsernameMaxLength then .error (.sentinel .usernameTooLong)
  else .ok ⟨value⟩

/-- Go `vo.Email` — validated email address. -/
structure Email where
  value : GoStr
deriving DecidableEq

/-- Go `vo.NewEmail`: trim, reject empty, then delegate syntax to
`mail.ParseAddress` (Go standard library, external — modelled by the
`parseAddr` parameter returning whether parsing succeeds). -/
def NewEmail (parseAddr : GoStr → Bool) (value : GoStr) : Except GoError Email :=
  let value := trimSpace value
  if value = [] then .error (.sentinel .emailEmpty)
  else if parseAddr value then .ok ⟨value⟩
  else .error (.sentinel .emailInvalid)

/-- Go `vo.Password` — the stored one-way hash (bytes modelled as a string). -/
structure Password where
  value : GoStr
deriving DecidableEq

def PasswordMinLength : Nat := 8
def PasswordMaxLength : Nat := 72

/-- Outcome of `bcrypt.CompareHashAndPassword` (external library):
nil error, `ErrMismatchedHashAndPassword`, or some other failure. -/
inductive BcryptResult
  | ok
  | mismatched
  | failure (code : Nat)
deriving DecidableEq

/-- Model of `bcrypt.CompareHashAndPassword(hash, raw)`. -/
abbrev Bcrypt := GoStr → GoStr → BcryptResult

/-- Go `isASCII` from `password.go`: every rune at most 127. -/
def isASCII (s : GoStr) : Bool := s.all (fun c => c.val ≤ 127)

/-- Go `vo.NewPassword`: empty / non-ASCII / length checks, then hashing via
`bcrypt.GenerateFromPassword` (external — modelled by `hashFn`, `none`
standing for a hashing failure).  The Go length check is on bytes, but it
runs only after the all-ASCII check, where bytes and code points agree. -/
def NewPassword (hashFn : GoStr → Option GoStr) (raw : GoStr) :
    Except GoError Password :=
  if raw = [] then .error (.sentinel .passwordEmpty)
  else if !isASCII raw then .error (.sentinel .passwordInvalid)
  else if raw.length < PasswordMinLength then .error (.sentinel .passwordTooShort)
  else if raw.length > PasswordMaxLength then .error (.sentinel .passwordTooLong)
  else match hashFn raw with
    | none => .error (.sentinel .passwordHashing)
    | some h => .ok ⟨h⟩

/-- Go `vo.NewPasswordFromHash`: wraps an existing hash verbatim, no validation. -/
def NewPasswordFromHash (hash : GoStr) : Password := ⟨hash⟩

/-- Go `Password.Verify`: compare the candidate against the stored hash.
Mismatch maps to `ErrPassowrdNotMatch`; any other bcrypt failure is
wrapped in `ErrPasswordVerifyFailed`; `none` means the password matches. -/
def Password.Verify (bc : Bcrypt) (p : Password) (raw : GoStr) : Option GoError :=
  match bc p.value raw with
  | .mismatched => some (.sentinel .passowrdNotMatch)
  | .failure c => some (.wrap .passwordVerifyFailed (.text (toString c)))
  | .ok => none

/- ===================== User entity ===================== -/

/-- Go `models.User` — identity plus credential value objects
(uuid values are modelled as strings). -/
structure User where
  id : GoStr
  username : Username
  email : Email
  passwordHash : Password
deriving DecidableEq

/-- Go `models.NewUser`: validate the three VOs in order (short-circuit on the
first failure) and take a freshly generated uuid (`uuid.New()` is external —
modelled by the `freshID` parameter). -/
def NewUser (freshID : GoStr) (parseAddr : GoStr → Bool)
    (hashFn : GoStr → Option GoStr)
    (username email password : GoStr) : Except GoError User :=
  match NewUsername username with
  | .error e => .error e
  | .ok usernameVO =>
    match NewEmail parseAddr email with
    | .error e => .error e
    | .ok emailVO =>
      match NewPassword hashFn password with
      | .error e => .error e
      | .ok passwordVO => .ok ⟨freshID, usernameVO, emailVO, passwordVO⟩

/-- Go `User.ChangeUsername`: validate-then-replace the username. -/
def User.ChangeUsername (u : User) (new : GoStr) : Except GoError User :=
  match NewUsername new with
  | .error e => .error e
  | .ok newUsernameVO => .ok { u with username := newUsernameVO }

/-- Go `User.ChangeEmail`: validate-then-replace the email. -/
def User.ChangeEmail (parseAddr : GoStr → Bool) (u : User) (new : GoStr) :
    Except GoError User :=
  match NewEmail parseAddr new with
  | .error e => .error e
  | .ok newEmailVO => .ok { u with email := newEmailVO }

/-- Go `User.ChangePassword`: verify the old password against the current hash
(propagating any verification error), validate and hash the new one, replace. -/
def User.ChangePassword (bc : Bcrypt) (hashFn : GoStr → Option GoStr)
    (u : User) (old new : GoStr) : Except GoError User :=
  match u.passwordHash.Verify bc old with
  | some e => .error e
  | none =>
    match NewPassword hashFn new with
    | .error e => .error e
    | .ok newPasswordVO => .ok { u with passwordHash := newPasswordVO }

/- ===================== Task entity ===================== -/

/-- Go `models.Task` — ownership, content VOs and the completion state. -/
structure Task where
  id : GoStr
  owner : GoStr
  title : Title
  description : Description
  deadline : Option Deadline
  isCompleted : Bool
  completedAt : Option Time
deriving DecidableEq

/-- Go `models.NewTask`: validate title and description, fresh uuid
(external, the `freshID` parameter), no deadline, not completed. -/
def NewTask (freshID : GoStr) (title description owner : GoStr) :
    Except GoError Task :=
  match NewTitle title with
  | .error e => .error e
  | .ok titleVO =>
    match NewDescription description with
    | .error e => .error e
    | .ok descriptionVO =>
      .ok ⟨freshID, owner, titleVO, descriptionVO, none, false, none⟩

/-- Go `models.NewTaskWithDeadline`: `NewTask` then validate and set the deadline. -/
def NewTaskWithDeadline (freshID : GoStr) (now : Time)
    (title description owner : GoStr) (deadline : Time) : Except GoError Task :=
  match NewTask freshID title description owner with
  | .error e => .error e
  | .ok task =>
    match NewDeadline now deadline with
    | .error e => .error e
    | .ok deadlineVO => .ok { task with deadline := some deadlineVO }

/-- Go `models.TaskFromDBParams` — raw task data loaded from the database. -/
structure TaskFromDBParams where
  id : GoStr
  owner : GoStr
  title : GoStr
  description : GoStr
  deadline : Option Time
  isCompleted : Bool
  completedAt : Option Time
deriving DecidableEq

/-- Go `models.NewTaskFromDB`: reject contradictory persisted completion fields
with a wrapped `ErrTaskFailedCreateFromDB`, then validate title and
description, then (for a non-nil stored deadline) re-validate it through
`NewDeadline`. -/
def NewTaskFromDB (now : Time) (p : TaskFromDBParams) : Except GoError Task :=
  if (p.isCompleted && p.completedAt.isNone) || (!p.isCompleted && p.completedAt.isSome) then
    .error (.wrap .taskFailedCreateFromDB (.text "completedAt and isCompleted fields contradict"))
  else
    match NewTitle p.title with
    | .error e => .error e
    | .ok titleVO =>
      match NewDescription p.description with
      | .error e => .error e
      | .ok descriptionVO =>
        let task : Task :=
          ⟨p.id, p.owner, titleVO, descriptionVO, none, p.isCompleted, p.completedAt⟩
        match p.deadline with
        | none => .ok task
        | some d =>
          match NewDeadline now d with
          | .error e => .error e
          | .ok deadlineVO => .ok { task with deadline := some deadlineVO }

/-- Go `Task.ChangeTitle`: validate-then-replace the title. -/
def Task.ChangeTitle (t : Task) (new : GoStr) : Except GoError Task :=
  match NewTitle new with
  | .error e => .error e
  | .ok newTitleVO => .ok { t with title := newTitleVO }

/-- Go `Task.ChangeDescription`: validate-then-replace the description. -/
def Task.ChangeDescription (t : Task) (new : GoStr) : Except GoError Task :=
  match NewDescription new with
  | .error e => .error e
  | .ok newDescriptionVO => .ok { t with description := newDescriptionVO }

/-- Go `Task.SetDeadline`: validate the new deadline (against `time.Now()`,
the `now` parameter) and set or replace it. -/
def Task.SetDeadline (t : Task) (now deadline : Time) : Except GoError Task :=
  match NewDeadline now deadline with
  | .error e => .error e
  | .ok deadlineVO => .ok { t with deadline := some deadlineVO }

def Task.HasDeadline (t : Task) : Bool := t.deadline.isSome

/-- Go `Task.RemoveDeadline`: clear the deadline unconditionally. -/
def Task.RemoveDeadline (t : Task) : Task := { t with deadline := none }

/-- Go `Task.IsOverdue`: false without a deadline; otherwise the deadline is
overdue and the task is not completed. -/
def Task.IsOverdue (t : Task) (now : Time) : Bool :=
  match t.deadline with
  | none => false
  | some d => d.IsOverdue now && !t.isCompleted

/-- Go `Task.Complete`: only if not already completed, set the flag and record
`time.Now()` (the `now` parameter) as the completion timestamp. -/
def Task.Complete (t : Task) (now : Time) : Task :=
  if !t.isCompleted then { t with isCompleted := true, completedAt := some now }
  else t

/-- Go `Task.Reopen`: clear the flag and the completion timestamp. -/
def Task.Reopen (t : Task) : Task := { t with isCompleted := false, completedAt := none }

/- ===================== application services ===================== -/

/-- The user repository contract (`services.UserRepository`) as the service
sees it for the mutation flows: each method is a function fixed for the
call, an `update` result of `none` meaning success. -/
structure UserRepo where
  findByID : GoStr → Except GoError User
  findByEmail : GoStr → Except GoError User
  update : User → Option GoError

/-- Result of one service mutation flow: the returned error (`none` on
success) paired with the entity value passed to the repository `Update`
call, `none` when `Update` was never called. -/
abbrev SvcResult (α : Type) := Option GoError × Option α

namespace UserService

/-- Go `UserService.ChangeUsername`: look up by id (repo not-found →
`ErrUserNotFound`, other failure → wrap `ErrUserChangeEmailFailed`),
verify the password (only the mismatch sentinel is checked — any other
verification error falls through), apply `User.ChangeUsername`
(propagating its error), persist (failure → wrap
`ErrUserChangeEmailFailed`). -/
def ChangeUsername (bc : Bcrypt) (repo : UserRepo)
    (id newUsername password : GoStr) : SvcResult User :=
  match repo.findByID id with
  | .error e =>
    if e.is .userRepoNotFound then (some (.sentinel .userNotFound), none)
    else (some (.wrap .userChangeEmailFailed e), none)
  | .ok user =>
    let verr := user.passwordHash.Verify bc password
    if (match verr with | some e => e.is .passowrdNotMatch | none => false) then
      (some (.sentinel .userUnauthorized), none)
    else
      match user.ChangeUsername newUsername with
      | .error e => (some e, none)
      | .ok user1 =>
        match repo.update user1 with
        | some e => (some (.wrap .userChangeEmailFailed e), some user1)
        | none => (none, some user1)

/-- Go `UserService.ChangeEmail`: look up by id, verify the password (mismatch
→ `ErrUserUnauthorized`, other verification error → wrap
`ErrUserChangeEmailFailed`), look up the new email (success → conflict;
failure is compared against the application-level `ErrUserNotFound`
sentinel, exactly as the source does), apply `User.ChangeEmail`, persist. -/
def ChangeEmail (bc : Bcrypt) (parseAddr : GoStr → Bool) (repo : UserRepo)
    (id newEmail password : GoStr) : SvcResult User :=
  match repo.findByID id with
  | .error e =>
    if e.is .userRepoNotFound then (some (.sentinel .userNotFound), none)
    else (some (.wrap .userChangeEmailFailed e), none)
  | .ok user =>
    match user.passwordHash.Verify bc password with
    | some e =>
      if e.is .passowrdNotMatch then (some (.sentinel .userUnauthorized), none)
      else (some (.wrap .userChangeEmailFailed e), none)
    | none =>
      match repo.findByEmail newEmail with
      | .ok _ => (some (.sentinel .emailAlreadyTaken), none)
      | .error e =>
        if !(e.is .userNotFound) then (some (.wrap .userChangeEmailFailed e), none)
        else
          match user.ChangeEmail parseAddr newEmail with
          | .error e1 => (some e1, none)
          | .ok user1 =>
            match repo.update user1 with
            | some e1 => (some (.wrap .userChangeEmailFailed e1), some user1)
            | none => (none, some user1)

/-- Go `UserService.ChangePassword`: look up by id, apply `User.ChangePassword`
(which verifies the old password itself, propagating its error), persist
(failure → wrap `ErrUserChangePasswordFailed`). -/
def ChangePassword (bc : Bcrypt) (hashFn : GoStr → Option GoStr)
    (repo : UserRepo) (id old new : GoStr) : SvcResult User :=
  match repo.findByID id with
  | .error e =>
    if e.is .userRepoNotFound then (some (.sentinel .userNotFound), none)
    else (some (.wrap .userChangePasswordFailed e), none)
  | .ok user =>
    match user.ChangePassword bc hashFn old new with
    | .error e => (some e, none)
    | .ok user1 =>
      match repo.update user1 with
      | some e => (some (.wrap .userChangePasswordFailed e), some user1)
      | none => (none, some user1)

end UserService

/-- The task repository contract (`services.TaskRepository`) as the service
sees it for the mutation flows. -/
structure TaskRepo where
  findByID : GoStr → Except GoError Task
  update : Task → Option GoError

namespace TaskService

/-- Go `TaskService.ChangeTitle`: look up (repo not-found → `ErrTaskNotFound`,
other failure → wrap), authorize by owner, apply `Task.ChangeTitle`
(propagating its error), persist (failure → wrap `ErrTaskChangeTitleFailed`). -/
def ChangeTitle (repo : TaskRepo) (id ownerID new : GoStr) : SvcResult Task :=
  match repo.findByID id with
  | .error e =>
    if e.is .taskRepoNotFound then (some (.sentinel .taskNotFound), none)
    else (some (.wrap .taskChangeTitleFailed e), none)
  | .ok task =>
    if task.owner ≠ ownerID then (some (.sentinel .taskAccessDenied), none)
    else
      match task.ChangeTitle new with
      | .error e => (some e, none)
      | .ok task1 =>
        match repo.update task1 with
        | some e => (some (.wrap .taskChangeTitleFailed e), some task1)
        | none => (none, some task1)

/-- Go `TaskService.ChangeDescription`: same flow, wrapping failures with
`ErrTaskChangeDescriptionFailed`. -/
def ChangeDescription (repo : TaskRepo) (id ownerID new : GoStr) : SvcResult Task :=
  match repo.findByID id with
  | .error e =>
    if e.is .taskRepoNotFound then (some (.sentinel .taskNotFound), none)
    else (some (.wrap .taskChangeDescriptionFailed e), none)
  | .ok task =>
    if task.owner ≠ ownerID then (some (.sentinel .taskAccessDenied), none)
    else
      match task.ChangeDescription new with
      | .error e => (some e, none)
      | .ok task1 =>
        match repo.update task1 with
        | some e => (some (.wrap .taskChangeDescriptionFailed e), some task1)
        | none => (none, some task1)

/-- Go `TaskService.SetDeadline`: same flow, applying `Task.SetDeadline`
(validated against `now`), wrapping failures with `ErrTaskSetDeadlineFailed`. -/
def SetDeadline (repo : TaskRepo) (now : Time) (id ownerID : GoStr)
    (deadline : Time) : SvcResult Task :=
  match repo.findByID id with
  | .error e =>
    if e.is .taskRepoNotFound then (some (.sentinel .taskNotFound), none)
    else (some (.wrap .taskSetDeadlineFailed e), none)
  | .ok task =>
    if task.owner ≠ ownerID then (some (.sentinel .taskAccessDenied), none)
    else
      match task.SetDeadline now deadline with
      | .error e => (some e, none)
      | .ok task1 =>
        match repo.update task1 with
        | some e => (some (.wrap .taskSetDeadlineFailed e), some task1)
        | none => (none, some task1)

/-- Go `TaskService.RemoveDeadline`: same flow; the entity mutation cannot
fail, failures of lookup/update wrap `ErrTaskRemoveDeadlineFailed`. -/
def RemoveDeadline (repo : TaskRepo) (id ownerID : GoStr) : SvcResult Task :=
  match repo.findByID id with
  | .error e =>
    if e.is .taskRepoNotFound then (some (.sentinel .taskNotFound), none)
    else (some (.wrap .taskRemoveDeadlineFailed e), none)
  | .ok task =>
    if task.owner ≠ ownerID then (some (.sentinel .taskAccessDenied), none)
    else
      let task1 := task.RemoveDeadline
      match repo.update task1 with
      | some e => (some (.wrap .taskRemoveDeadlineFailed e), some task1)
      | none => (none, some task1)

/-- Go `TaskService.Complete`: lookup and authorize; if the task is already
completed return success without calling `Update`; otherwise apply
`Task.Complete` (recording `now`) and persist, wrapping failures with
`ErrTaskCompleteFailed`. -/
def Complete (repo : TaskRepo) (now : Time) (id ownerID : GoStr) : SvcResult Task :=
  match repo.findByID id with
  | .error e =>
    if e.is .taskRepoNotFound then (some (.sentinel .taskNotFound), none)
    else (some (.wrap .taskCompleteFailed e), none)
  | .ok task =>
    if task.owner ≠ ownerID then (some (.sentinel .taskAccessDenied), none)
    else if task.isCompleted then (none, none)
    else
      let task1 := task.Complete now
      match repo.update task1 with
      | some e => (some (.wrap .taskCompleteFailed e), some task1)
      | none => (none, some task1)

/-- Go `TaskService.Reopen`: lookup and authorize; if the task is not completed
return success without calling `Update`; otherwise apply `Task.Reopen` and
persist, wrapping failures with `ErrTaskReopenFailed`. -/
def Reopen (repo : TaskRepo) (id ownerID : GoStr) : SvcResult Task :=
  match repo.findByID id with
  | .error e =>
    if e.is .taskRepoNotFound then (some (.sentinel .taskNotFound), none)
    else (some (.wrap .taskReopenFailed e), none)
  | .ok task =>
    if task.owner ≠ ownerID then (some (.sentinel .taskAccessDenied), none)
    else if !task.isCompleted then (none, none)
    else
      let task1 := task.Reopen
      match repo.update task1 with
      | some e => (some (.wrap .taskReopenFailed e), some task1)
      | none => (none, some task1)

end TaskService

/- ===================== derived predicates and fixtures ===================== -/

/-- The persisted-state invariant of `Task`:
`IsCompleted = true` iff `CompletedAt` is present. -/
def TaskInv (t : Task) : Prop := t.isCompleted = true ↔ t.completedAt ≠ none

/-- A `mail.ParseAddress` model that accepts every address. -/
def parseAlways : GoStr → Bool := fun _ => true

/-- A bcrypt comparison that always reports a match. -/
def bcAlwaysOk : Bcrypt := fun _ _ => .ok

/-- A bcrypt comparison that always fails with a mechanism error
(e.g. a corrupted stored hash), never with a mismatch. -/
def bcBroken : Bcrypt := fun _ _ => .failure 7

/-- A hash function model that stores the raw value verbatim. -/
def hashIdentity : GoStr → Option GoStr := fun s => some s

/-- A concrete stored user. -/
def userAlice : User := ⟨"u1".toList, ⟨"alice".toList⟩, ⟨"alice@x.com".toList⟩, ⟨"hash1".toList⟩⟩

/-- A user repository in which the requested user exists, no account holds
the looked-up email (`FindByEmail` fails with the repository's own
not-found sentinel, as the postgres implementation does on
`sql.ErrNoRows`), and updates succeed. -/
def userRepoFreeEmail : UserRepo :=
  ⟨fun _ => .ok userAlice, fun _ => .error (.sentinel .userRepoNotFound), fun _ => none⟩

/-- A user repository in which the user is found by id but the row
disappears before `Update`: the update fails with the repository
not-found sentinel. -/
def userRepoUpdateGone : UserRepo :=
  ⟨fun _ => .ok userAlice, fun _ => .error (.sentinel .userRepoNotFound),
   fun _ => some (.sentinel .userRepoNotFound)⟩

/-- A user repository in which the user exists and updates succeed. -/
def userRepoPlain : UserRepo :=
  ⟨fun _ => .ok userAlice, fun _ => .error (.sentinel .userRepoNotFound), fun _ => none⟩

/-- A concrete open task owned by `owner1`. -/
def taskOpen : Task := ⟨"t1".toList, "owner1".toList, ⟨"T".toList⟩, ⟨[]⟩, none, false, none⟩

/-- A concrete completed task owned by `owner1`. -/
def taskDone : Task := ⟨"t2".toList, "owner1".toList, ⟨"T".toList⟩, ⟨[]⟩, none, true, some 1⟩

/-- A task repository holding `taskOpen`, where updates succeed. -/
def taskRepoOpen : TaskRepo := ⟨fun _ => .ok taskOpen, fun _ => none⟩

/-- A task repository holding `taskDone`, where updates succeed. -/
def taskRepoDone : TaskRepo := ⟨fun _ => .ok taskDone, fun _ => none⟩

/- ===================== auxiliary lemmas ===================== -/

/-- Go `NewTitle` can only fail with one of its two validation sentinels. -/
theorem NewTitle_error_shape (s : GoStr) (e : GoError) (h : NewTitle s = .error e) :
    e = .sentinel .titleEmpty ∨ e = .sentinel .titleTooLong := by
  simp only [NewTitle] at h
  split at h
  · exact Or.inl (Except.error.inj h).symm
  · split at h
    · exact Or.inr (Except.error.inj h).symm
    · exact absurd h (by simp)

/-- Go `NewDescription` can only fail with its single validation sentinel. -/
theorem NewDescription_error_shape (s : GoStr) (e : GoError)
    (h : NewDescription s = .error e) : e = .sentinel .descriptionTooLong := by
  simp only [NewDescription] at h
  split at h
  · exact (Except.error.inj h).symm
  · exact absurd h (by simp)

/-- Go `NewDeadline` can only fail with the deadline-before-now sentinel. -/
theorem NewDeadline_error_shape (now v : Time) (e : GoError)
    (h : NewDeadline now v = .error e) : e = .sentinel .deadlineBeforeNow := by
  simp only [NewDeadline] at h
  split at h
  · exact (Except.error.inj h).symm
  · exact absurd h (by simp)

/-- With consistent persisted completion fields, `NewTaskFromDB` never
produces the inconsistent-state error (every later failure is a bare
validation sentinel, not a wrap of `ErrTaskFailedCreateFromDB`). -/
theorem newTaskFromDB_consistent_no_contradiction_error (now : Time)
    (p : TaskFromDBParams)
    (hc : ((p.isCompleted && p.completedAt.isNone) ||
           (!p.isCompleted && p.completedAt.isSome)) = false) :
    NewTaskFromDB now p ≠
      .error (.wrap .taskFailedCreateFromDB
        (.text "completedAt and isCompleted fields contradict")) := by
  unfold NewTaskFromDB
  rw [hc]
  simp only [Bool.false_eq_true, if_false]
  cases hnt : NewTitle p.title with
  | error e => rcases NewTitle_error_shape _ _ hnt with h | h <;> simp [h]
  | ok tv =>
    cases hnd : NewDescription p.description with
    | error e => rw [NewDescription_error_shape _ _ hnd]; simp
    | ok dv =>
      cases hdl : p.deadline with
      | none => simp
      | some d =>
        cases hndl : NewDeadline now d with
        | error e =>
          have he := NewDeadline_error_shape now d e hndl
          simp [hndl, he]
        | ok dlv => simp [hndl]

/- ===================== claim theorems ===================== -/

/-- Claim C4, counterexample: the boundary case is not rejected.  With the
current time `0`, constructing a deadline from the timestamp `0` (exactly
now) succeeds, because the source only tests `value.Before(time.Now())` —
refuting the claim that every timestamp less than or equal to now fails. -/
theorem newDeadline_boundary_accepted : NewDeadline 0 0 = .ok ⟨0⟩ := rfl

/-- Claim C4 (amended): deadline construction fails with the
deadline-before-now error for every timestamp strictly less than the
current time, and succeeds for every timestamp greater than or equal to
the current time (the boundary timestamp equal to now is valid), with the
constructed deadline's `Time()` returning exactly the input value. -/
theorem newDeadline_strict_past_fails_future_roundtrips (now v : Time) :
    (v < now → NewDeadline now v = .error (.sentinel .deadlineBeforeNow)) ∧
    (now ≤ v → NewDeadline now v = .ok ⟨v⟩ ∧ (Deadline.mk v).time = v) := by
  unfold NewDeadline Deadline.time
  constructor
  · intro h
    simp [h]
  · intro h
    simp [not_lt.mpr h]

/-- Witness for the amended C4 theorem at `now = 5`: `3` is rejected,
`7` is accepted and round-trips. -/
theorem newDeadline_strict_past_fails_future_roundtrips_witness :
    NewDeadline 5 3 = .error (.sentinel .deadlineBeforeNow) ∧
    NewDeadline 5 7 = .ok ⟨7⟩ :=
  ⟨(newDeadline_strict_past_fails_future_roundtrips 5 3).1 (by decide),
   ((newDeadline_strict_past_fails_future_roundtrips 5 7).2 (by decide)).1⟩

/-- Claim C5: `NewTaskFromDB` fails with the dedicated inconsistent-state
error (the wrap of `ErrTaskFailedCreateFromDB`) exactly when the persisted
fields contradict — `IsCompleted = true` with `CompletedAt = nil` or
`IsCompleted = false` with `CompletedAt` non-nil; for consistent inputs the
check passes and construction proceeds to field validation (so this exact
error is never produced). -/
theorem newTaskFromDB_inconsistent_iff (now : Time) (p : TaskFromDBParams) :
    NewTaskFromDB now p =
        .error (.wrap .taskFailedCreateFromDB
          (.text "completedAt and isCompleted fields contradict")) ↔
      ((p.isCompleted = true ∧ p.completedAt = none) ∨
       (p.isCompleted = false ∧ p.completedAt ≠ none)) := by
  cases hic : p.isCompleted <;> cases hca : p.completedAt
  case false.none =>
    have hne := newTaskFromDB_consistent_no_contradiction_error now p
      (by simp [hic, hca])
    simp [hic, hca, hne]
  case false.some c =>
    simp [NewTaskFromDB, hic, hca]
  case true.none =>
    simp [NewTaskFromDB, hic, hca]
  case true.some c =>
    have hne := newTaskFromDB_consistent_no_contradiction_error now p
      (by simp [hic, hca])
    simp [hic, hca, hne]

/-- Witness for C5: a record persisted as completed but with no completion
timestamp is rejected with the inconsistent-state error. -/
theorem newTaskFromDB_inconsistent_iff_witness :
    NewTaskFromDB 0 ⟨"t1".toList, "o1".toList, "T".toList, [], none, true, none⟩ =
      .error (.wrap .taskFailedCreateFromDB
        (.text "completedAt and isCompleted fields contradict")) :=
  (newTaskFromDB_inconsistent_iff 0 _).mpr (Or.inl ⟨rfl, rfl⟩)

/-- Claim C6: `Task.Complete` is idempotent — a second call leaves the task
exactly as the first call left it, the task is completed afterwards, the
completion timestamp is the one recorded by the first call (not
overwritten by the second), and on an already-completed task `Complete`
changes nothing. -/
theorem task_complete_idempotent (t : Task) (n1 n2 : Time) :
    (t.Complete n1).Complete n2 = t.Complete n1 ∧
    (t.Complete n1).isCompleted = true ∧
    (t.Complete n1).completedAt = (if t.isCompleted then t.completedAt else some n1) ∧
    (t.isCompleted = true → t.Complete n1 = t) := by
  cases h : t.isCompleted <;> simp [Task.Complete, h]

/-- Witness for C6 on a concrete open task: completing at time 1 then again
at time 2 keeps the first timestamp. -/
theorem task_complete_idempotent_witness :
    (taskOpen.Complete 1).Complete 2 = taskOpen.Complete 1 ∧
    (taskOpen.Complete 1).completedAt = some 1 :=
  ⟨(task_complete_idempotent taskOpen 1 2).1,
   ((task_complete_idempotent taskOpen 1 2).2.2.1).trans (by simp [taskOpen])⟩

/-- Claim C9: `NewTaskFromDB` re-validates a non-nil persisted deadline
through `NewDeadline`, so reconstructing a stored task — consistent
completion fields, valid title and description — whose deadline is
strictly before the current time fails with the deadline-before-now
error: a persisted overdue task cannot be loaded back into the domain. -/
theorem newTaskFromDB_overdue_deadline_fails (now : Time) (p : TaskFromDBParams)
    (d : Time) (hd : p.deadline = some d) (hlt : d < now)
    (hcons : p.isCompleted = true ↔ p.completedAt ≠ none)
    (ht : ∃ v, NewTitle p.title = .ok v)
    (hdesc : ∃ v, NewDescription p.description = .ok v) :
    NewTaskFromDB now p = .error (.sentinel .deadlineBeforeNow) := by
  obtain ⟨tv, htv⟩ := ht
  obtain ⟨dv, hdv⟩ := hdesc
  have hc : ((p.isCompleted && p.completedAt.isNone) ||
      (!p.isCompleted && p.completedAt.isSome)) = false := by
    cases hic : p.isCompleted <;> cases hca : p.completedAt <;> simp_all
  unfold NewTaskFromDB
  rw [hc]
  simp only [Bool.false_eq_true, if_false]
  rw [htv, hdv, hd]
  simp [NewDeadline, hlt]

/-- Witness for C9: a stored open task with deadline `3` cannot be
reconstructed at current time `10`. -/
theorem newTaskFromDB_overdue_deadline_fails_witness :
    NewTaskFromDB 10 ⟨"t1".toList, "o1".toList, "T".toList, [], some 3, false, none⟩ =
      .error (.sentinel .deadlineBeforeNow) :=
  newTaskFromDB_overdue_deadline_fails 10 _ 3 rfl (by decide) (by decide)
    ⟨⟨"T".toList⟩, by decide⟩ ⟨⟨[]⟩, by decide⟩

/-- Claim C10: the invariant `IsCompleted = true ↔ CompletedAt` present
holds for tasks built by `NewTask` and `NewTaskWithDeadline` and is
preserved by every entity operation: `Complete` sets both fields together,
`Reopen` clears both together, and the remaining operations touch neither
field. -/
theorem task_invariant_preserved (t : Task) (h : TaskInv t) :
    (∀ s t1, t.ChangeTitle s = .ok t1 → TaskInv t1) ∧
    (∀ s t1, t.ChangeDescription s = .ok t1 → TaskInv t1) ∧
    (∀ now d t1, t.SetDeadline now d = .ok t1 → TaskInv t1) ∧
    TaskInv t.RemoveDeadline ∧
    (∀ now, TaskInv (t.Complete now)) ∧
    TaskInv t.Reopen ∧
    (∀ fid a b c t1, NewTask fid a b c = .ok t1 → TaskInv t1) ∧
    (∀ fid now a b c d t1, NewTaskWithDeadline fid now a b c d = .ok t1 → TaskInv t1) := by
  refine ⟨?_, ?_, ?_, ?_, ?_, ?_, ?_, ?_⟩
  · intro s t1 hok
    unfold Task.ChangeTitle at hok
    cases hnt : NewTitle s <;> rw [hnt] at hok <;> simp at hok
    rw [← hok]
    simpa [TaskInv] using h
  · intro s t1 hok
    unfold Task.ChangeDescription at hok
    cases hnd : NewDescription s <;> rw [hnd] at hok <;> simp at hok
    rw [← hok]
    simpa [TaskInv] using h
  · intro now d t1 hok
    unfold Task.SetDeadline at hok
    cases hnd : NewDeadline now d <;> rw [hnd] at hok <;> simp at hok
    rw [← hok]
    simpa [TaskInv] using h
  · simpa [TaskInv, Task.RemoveDeadline] using h
  · intro now
    cases hc : t.isCompleted <;> simp_all [TaskInv, Task.Complete]
  · simp [TaskInv, Task.Reopen]
  · intro fid a b c t1 hok
    unfold NewTask at hok
    cases hnt : NewTitle a <;> rw [hnt] at hok <;> simp at hok
    cases hnd : NewDescription b <;> rw [hnd] at hok <;> simp at hok
    rw [← hok]
    simp [TaskInv]
  · intro fid now a b c d t1 hok
    unfold NewTaskWithDeadline NewTask at hok
    cases hnt : NewTitle a <;> rw [hnt] at hok <;> simp at hok
    cases hnd : NewDescription b <;> rw [hnd] at hok <;> simp at hok
    cases hdl : NewDeadline now d <;> rw [hdl] at hok <;> simp at hok
    rw [← hok]
    simp [TaskInv]

/-- Witness for C10: the invariant holds on a concrete open task and is
kept by completing it. -/
theorem task_invariant_preserved_witness :
    TaskInv (taskOpen.Complete 5) :=
  (task_invariant_preserved taskOpen (by simp [TaskInv, taskOpen])).2.2.2.2.1 5

/-- Claim C1 (code bug): after lookup and password verification succeed,
when the lookup of the new email fails with the repository's not-found
sentinel `ErrUserRepoNotFound` — the situation in which the email is free
and the operation is supposed to proceed — `ChangeEmail` does not proceed:
the source compares the failure against the application-level
`ErrUserNotFound` sentinel instead of the repository one, so it returns
the wrapped `ErrUserChangeEmailFailed` error and never calls `Update`. -/
theorem changeEmail_free_email_wrapped_internal :
    UserService.ChangeEmail bcAlwaysOk parseAlways userRepoFreeEmail
        "u1".toList "new@x.com".toList "pw".toList =
      (some (.wrap .userChangeEmailFailed (.sentinel .userRepoNotFound)), none) := rfl

/-- Claim C2: for every mutating task-service operation, when the task is
found and its owner differs from the requesting owner id, the operation
returns the access-denied error and never calls the repository `Update`
(so no mutation is persisted) — for every requested new value, hence
regardless of whether the mutation itself would fail validation. -/
theorem taskService_owner_mismatch_access_denied (repo : TaskRepo) (now d : Time)
    (id ownerID s : GoStr) (t : Task)
    (hfind : repo.findByID id = .ok t) (hown : t.owner ≠ ownerID) :
    TaskService.ChangeTitle repo id ownerID s = (some (.sentinel .taskAccessDenied), none) ∧
    TaskService.ChangeDescription repo id ownerID s = (some (.sentinel .taskAccessDenied), none) ∧
    TaskService.SetDeadline repo now id ownerID d = (some (.sentinel .taskAccessDenied), none) ∧
    TaskService.RemoveDeadline repo id ownerID = (some (.sentinel .taskAccessDenied), none) ∧
    TaskService.Complete repo now id ownerID = (some (.sentinel .taskAccessDenied), none) ∧
    TaskService.Reopen repo id ownerID = (some (.sentinel .taskAccessDenied), none) := by
  unfold TaskService.ChangeTitle TaskService.ChangeDescription TaskService.SetDeadline
    TaskService.RemoveDeadline TaskService.Complete TaskService.Reopen
  simp [hfind, hown]

/-- Witness for C2: a different owner asking to set the (invalid) empty
title is denied access, the validation error notwithstanding. -/
theorem taskService_owner_mismatch_access_denied_witness :
    TaskService.ChangeTitle taskRepoOpen "t1".toList "intruder".toList [] =
      (some (.sentinel .taskAccessDenied), none) :=
  (taskService_owner_mismatch_access_denied taskRepoOpen 0 0 "t1".toList
    "intruder".toList [] taskOpen rfl (by decide)).1

/-- Claim C3, counterexample: in `ChangePassword`, when the repository
`Update` fails with the repository not-found sentinel (the row
disappeared between lookup and update), the returned error is the wrap of
`ErrUserChangePasswordFailed` — not the domain `ErrUserNotFound`, which it
does not even match under `errors.Is`. -/
theorem changePassword_update_race_not_mapped :
    UserService.ChangePassword bcAlwaysOk hashIdentity userRepoUpdateGone
        "u1".toList "oldpw".toList "newpassword1".toList =
      (some (.wrap .userChangePasswordFailed (.sentinel .userRepoNotFound)),
       some { userAlice with passwordHash := ⟨"newpassword1".toList⟩ }) ∧
    (GoError.wrap .userChangePasswordFailed (.sentinel .userRepoNotFound)).is
        .userNotFound = false :=
  ⟨rfl, rfl⟩

/-- Claim C3 (amended): in `ChangeUsername`, `ChangeEmail` and
`ChangePassword`, a repository `Update` failure — the not-found sentinel
included — is returned wrapped in the operation's failed sentinel
(`ErrUserChangeEmailFailed` for the first two, `ErrUserChangePasswordFailed`
for the third); it is not mapped to the domain user-not-found error. -/
theorem userService_update_failure_wrapped (bc : Bcrypt) (pa : GoStr → Bool)
    (hashFn : GoStr → Option GoStr) (repo : UserRepo) (id x pw old : GoStr)
    (u u1 : User) (e : GoError)
    (hfind : repo.findByID id = .ok u) (hupd : repo.update u1 = some e) :
    ((match u.passwordHash.Verify bc pw with
      | some er => er.is .passowrdNotMatch
      | none => false) = false →
      u.ChangeUsername x = .ok u1 →
      UserService.ChangeUsername bc repo id x pw =
        (some (.wrap .userChangeEmailFailed e), some u1)) ∧
    (u.passwordHash.Verify bc pw = none →
      repo.findByEmail x = .error (.sentinel .userNotFound) →
      u.ChangeEmail pa x = .ok u1 →
      UserService.ChangeEmail bc pa repo id x pw =
        (some (.wrap .userChangeEmailFailed e), some u1)) ∧
    (u.ChangePassword bc hashFn old x = .ok u1 →
      UserService.ChangePassword bc hashFn repo id old x =
        (some (.wrap .userChangePasswordFailed e), some u1)) ∧
    (GoError.wrap .userChangeEmailFailed e).is .userNotFound = false ∧
    (GoError.wrap .userChangePasswordFailed e).is .userNotFound = false := by
  refine ⟨?_, ?_, ?_, by simp [GoError.is], by simp [GoError.is]⟩
  · intro hv hch
    unfold UserService.ChangeUsername
    simp [hfind, hv, hch, hupd]
  · intro hv hfe hch
    unfold UserService.ChangeEmail
    simp [hfind, hv, hfe, hch, hupd, GoError.is]
  · intro hch
    unfold UserService.ChangePassword
    simp [hfind, hch, hupd]

/-- Witness for the amended C3 theorem: the concrete `ChangePassword` run
where the row vanished before `Update`. -/
theorem userService_update_failure_wrapped_witness :
    UserService.ChangePassword bcAlwaysOk hashIdentity userRepoUpdateGone
        "u1".toList "oldpw".toList "newpassword1".toList =
      (some (.wrap .userChangePasswordFailed (.sentinel .userRepoNotFound)),
       some { userAlice with passwordHash := ⟨"newpassword1".toList⟩ }) :=
  (userService_update_failure_wrapped bcAlwaysOk parseAlways hashIdentity
      userRepoUpdateGone "u1".toList "newpassword1".toList "pw".toList "oldpw".toList
      userAlice { userAlice with passwordHash := ⟨"newpassword1".toList⟩ }
      (.sentinel .userRepoNotFound) rfl rfl).2.2.1 rfl

/-- Claim C7: for `Complete` and `Reopen`, when the found and
owner-authorized task is already in the target state, the operation
returns success without calling the repository `Update` (the second
component is `none`: no update call is made, so the repository state an
update would see is untouched by the redundant call). -/
theorem taskService_complete_reopen_noop (repo : TaskRepo) (now : Time)
    (id ownerID : GoStr) (t : Task)
    (hfind : repo.findByID id = .ok t) (hown : t.owner = ownerID) :
    (t.isCompleted = true → TaskService.Complete repo now id ownerID = (none, none)) ∧
    (t.isCompleted = false → TaskService.Reopen repo id ownerID = (none, none)) := by
  unfold TaskService.Complete TaskService.Reopen
  constructor
  · intro hc
    simp [hfind, hown, hc]
  · intro hc
    simp [hfind, hown, hc]

/-- Witness for C7: completing an already-completed task by its owner
succeeds without an update. -/
theorem taskService_complete_reopen_noop_witness :
    TaskService.Complete taskRepoDone 9 "t2".toList "owner1".toList = (none, none) :=
  (taskService_complete_reopen_noop taskRepoDone 9 "t2".toList "owner1".toList
    taskDone rfl rfl).1 rfl

/-- Claim C8: in `ChangeUsername`, when password verification fails with
anything other than the mismatch sentinel (a verification-mechanism
failure), the source checks only for the mismatch sentinel, so the
operation proceeds exactly as if verification had succeeded: it applies
the username change, calls `Update` with the changed user, and its result
depends only on the update outcome — the verification error is dropped. -/
theorem changeUsername_mechanism_failure_ignored (bc : Bcrypt) (repo : UserRepo)
    (id nu pw : GoStr) (u u1 : User) (e : GoError)
    (hfind : repo.findByID id = .ok u)
    (hverify : u.passwordHash.Verify bc pw = some e)
    (hnm : e.is .passowrdNotMatch = false)
    (hchange : u.ChangeUsername nu = .ok u1) :
    UserService.ChangeUsername bc repo id nu pw =
      (match repo.update u1 with
       | some e1 => (some (.wrap .userChangeEmailFailed e1), some u1)
       | none => (none, some u1)) := by
  unfold UserService.ChangeUsername
  simp [hfind, hverify, hnm, hchange]

/-- Witness for C8: with a bcrypt comparison that always fails with a
mechanism error, `ChangeUsername` still applies and persists the change
and reports success. -/
theorem changeUsername_mechanism_failure_ignored_witness :
    UserService.ChangeUsername bcBroken userRepoPlain
        "u1".toList "bob".toList "pw".toList =
      (none, some { userAlice with username := ⟨"bob".toList⟩ }) :=
  changeUsername_mechanism_failure_ignored bcBroken userRepoPlain
    "u1".toList "bob".toList "pw".toList userAlice
    { userAlice with username := ⟨"bob".toList⟩ }
    (.wrap .passwordVerifyFailed (.text "7")) rfl rfl rfl rfl

end Taskery
